import Mathlib

/-
Verification of the attribute lifecycle and issuance pipeline of the
Attribute Certificate Authority (membersrvc/ca/aca.go).

Shallow embedding conventions:
- Go `time.Time` is modelled as `Int` (an abstract instant axis); the Go
  zero value (the "unset" representation, January 1 of year 1) is `0`;
  `Before`/`After`/`Equal` are `<` / `>` / `=`; `IsZero t` is `t = 0`.
  Instants strictly before the zero value exist in Go and are the
  negative integers here.
- `strings.TrimSpace`, `strings.Fields` and `strings.Split(s, ";")` are
  implemented structurally over the character list of the string, with
  their usual semantics.
- `time.Parse(time.RFC3339, s)` is an oracle `String → Option Int`
  (library code outside the repository): `none` is a parse error.
- The SQL table `Attributes` is a list of rows; `SELECT count` is the
  length of the key filter, the guarded `UPDATE ... WHERE validFrom < ?`
  maps over rows, `INSERT` appends. The `database/sql` transaction is an
  explicit working copy: only `Commit` publishes it, `Rollback` (and a
  failed `Commit`) leaves the committed table untouched. Driver failures
  are injected through a `DbOracle`.
- External collaborators (x509 parsing, ECDSA verify/sign, protobuf
  marshalling, the generic CA core) are oracle fields of `AcaEnv`.
- A Go function returning `(T, error)` becomes `Except String T`, or a
  pair with an `Option String` component when the Go code returns both a
  response value and an error.
-/

deriving instance DecidableEq for Except

namespace Aca


/-- Model of `strings.TrimSpace`: drop leading and trailing whitespace. -/
def goTrimSpace (s : String) : String :=
  String.mk (((s.data.dropWhile Char.isWhitespace).reverse.dropWhile
    Char.isWhitespace).reverse)

/-- Split a character list at every character satisfying `p`, keeping
empty pieces — the semantics shared by `strings.Split` on a one-character
separator and by the splitting step of `strings.Fields`. -/
def charSplit (p : Char → Bool) : List Char → List Char → List (List Char)
  | acc, [] => [acc.reverse]
  | acc, c :: cs =>
    if p c then acc.reverse :: charSplit p [] cs else charSplit p (c :: acc) cs

/-- Model of `strings.Fields`: split on whitespace, dropping empty fields. -/
def goFields (s : String) : List String :=
  ((charSplit (fun c => c.isWhitespace) [] s.data).map String.mk).filter
    fun t => t ≠ ""

/-- Model of `strings.Split(s, ";")`. -/
def goSplitSemicolon (s : String) : List String :=
  (charSplit (fun c => c == ';') [] s.data).map String.mk

/-- `AttributeOwner` (aca.go): the identity that owns an attribute. -/
structure AttributeOwner where
  id : String
  affiliation : String
deriving DecidableEq

/-- `AttributePair` (aca.go): owner, name, value and validity window. -/
structure AttributePair where
  owner : AttributeOwner
  attributeName : String
  attributeValue : String
  validFrom : Int
  validTo : Int
deriving DecidableEq

/-- `AttributePair.IsValidFor` (aca.go line 190):
`(validFrom.Before(date) || validFrom.Equal(date)) && (validTo.IsZero() || validTo.After(date))`. -/
def AttributePair.IsValidFor (attrPair : AttributePair) (date : Int) : Bool :=
  (decide (attrPair.validFrom < date) || decide (attrPair.validFrom = date)) &&
    (decide (attrPair.validTo = 0) || decide (attrPair.validTo > date))

/-- The unset-aware reading of a stored Go time: `0` means absent. -/
def timeAsOpt (t : Int) : Option Int := if t = 0 then none else some t

/-- The validity predicate exactly as the spec words it: `t` lies in the
half-open interval from `validFrom` to `validTo`, an unset `validFrom`
meaning valid from the beginning of time (minus infinity) and an unset
`validTo` meaning never expires (plus infinity). -/
def specValidFor (validFrom validTo : Option Int) (t : Int) : Bool :=
  (match validFrom with
   | none => true
   | some vf => decide (vf ≤ t)) &&
  (match validTo with
   | none => true
   | some vt => decide (t < vt))

/-- `NewAttributePair` (aca.go lines 104-137), parameterized by the
RFC3339 parser oracle `parse` (`none` = parse error). -/
def NewAttributePair (parse : String → Option Int) (attributeVals : List String)
    (attrOwner : Option AttributeOwner) : Except String AttributePair :=
  if attributeVals.length < 6 then .error "Invalid attribute entry"
  else
    let owner : AttributeOwner := attrOwner.getD
      ⟨goTrimSpace (attributeVals.getD 0 ""), goTrimSpace (attributeVals.getD 1 "")⟩
    let name := goTrimSpace (attributeVals.getD 2 "")
    let value := goTrimSpace (attributeVals.getD 3 "")
    let fromStr := goTrimSpace (attributeVals.getD 4 "")
    let toStr := goTrimSpace (attributeVals.getD 5 "")
    match (if fromStr = "" then some 0 else parse fromStr) with
    | none => .error "parsing time"
    | some vf =>
      match (if toStr = "" then some 0 else parse toStr) with
      | none => .error "parsing time"
      | some vt => .ok ⟨owner, name, value, vf, vt⟩

/-- One row of the `Attributes` SQL table (initializeACATables, aca.go
line 81); the synthetic `row` primary key plays no role in any query
result and is omitted. -/
structure AttrRow where
  id : String
  affiliation : String
  attributeName : String
  validFrom : Int
  validTo : Int
  attributeValue : String
deriving DecidableEq

/-- The `WHERE id=? AND affiliation=? AND attributeName=?` predicate. -/
def keyMatches (r : AttrRow) (id affiliation attributeName : String) : Bool :=
  r.id == id && r.affiliation == affiliation && r.attributeName == attributeName

/-- The row an `AttributePair` is inserted as. -/
def AttributePair.toRow (attr : AttributePair) : AttrRow :=
  ⟨attr.owner.id, attr.owner.affiliation, attr.attributeName,
    attr.validFrom, attr.validTo, attr.attributeValue⟩

/-- `populateAttribute` (aca.go lines 311-336), the pure table effect of
the SQL: count rows by key; if present, `UPDATE ... WHERE key AND
validFrom < newValidFrom` (a stale write updates nothing); else `INSERT`. -/
def populateAttribute (tbl : List AttrRow) (attr : AttributePair) : List AttrRow :=
  let count := (tbl.filter fun r =>
    keyMatches r attr.owner.id attr.owner.affiliation attr.attributeName).length
  if 0 < count then
    tbl.map fun r =>
      if keyMatches r attr.owner.id attr.owner.affiliation attr.attributeName
          && decide (r.validFrom < attr.validFrom) then
        { r with validFrom := attr.validFrom, validTo := attr.validTo,
                 attributeValue := attr.attributeValue }
      else r
  else
    tbl ++ [attr.toRow]

/-- Injected `database/sql` driver failures: `Begin`, the per-record SQL
of `populateAttribute`, `Commit` and `Rollback` can each fail. -/
structure DbOracle where
  beginFails : Bool
  execFails : AttributePair → Bool
  commitFails : Bool
  rollbackFails : Bool

/-- A driver oracle on which every operation succeeds. -/
def dbAllOk : DbOracle := ⟨false, fun _ => false, false, false⟩

/-- The transaction body of `populateAttributes`: apply each record to the
working copy `tx`, stopping at the first driver failure. -/
def populateAttributesLoop (o : DbOracle) (tx : List AttrRow) :
    List AttributePair → Except String (List AttrRow)
  | [] => .ok tx
  | attr :: rest =>
    if o.execFails attr then .error "populate attribute failed"
    else populateAttributesLoop o (populateAttribute tx attr) rest

/-- `populateAttributes` (aca.go lines 287-309): `Begin`, apply every
record, `Commit`; the first failure rolls the transaction back. Returns
the committed table afterwards and the Go error (`none` = nil). -/
def populateAttributes (o : DbOracle) (committed : List AttrRow)
    (attrs : List AttributePair) : List AttrRow × Option String :=
  if o.beginFails then (committed, some "begin failed")
  else
    match populateAttributesLoop o committed attrs with
    | .error e =>
      if o.rollbackFails then (committed, some "rollback failed")
      else (committed, some e)
    | .ok tx =>
      if o.commitFails then (committed, some "commit failed")
      else (tx, none)

/-- `findAttribute` (aca.go lines 351-374): count rows by exact key; zero
rows is `nil, nil`; otherwise the selected row's name, value and window
are wrapped into an `AttributePair` for `owner`. No validity filtering. -/
def findAttribute (tbl : List AttrRow) (owner : AttributeOwner)
    (attributeName : String) : Option AttributePair :=
  match tbl.filter fun r => keyMatches r owner.id owner.affiliation attributeName with
  | [] => none
  | r :: _ => some ⟨owner, r.attributeName, r.attributeValue, r.validFrom, r.validTo⟩

/-- One entry of `fetchAttributes` (aca.go lines 259-280): `Fields`, the
space-rejoin, the `";"` split, the length guard, `NewAttributePair`, and
the owner filter. `skip` means the entry contributes nothing, `keep`
means it is appended, `abort` fails the whole fetch. -/
inductive EntryOutcome where
  | skip
  | keep (attrPair : AttributePair)
  | abort (msg : String)
deriving DecidableEq

/-- The space-rejoined value of one feed entry (aca.go lines 262-265):
the whitespace fields glued back with single spaces, with a leading
space. -/
def entryVal (flds : String) : String :=
  (goFields flds).foldl (fun acc v => acc ++ " " ++ v) ""

/-- The semicolon-separated raw tuple fields of one feed entry (aca.go
line 266). -/
def entryFields (flds : String) : List String :=
  goSplitSemicolon (entryVal flds)

/-- Processing of a single raw feed entry, factored out of the loop body
of `fetchAttributes` so the loop and the theorems agree on it. -/
def processEntry (parse : String → Option Int) (id affiliation flds : String) :
    EntryOutcome :=
  let vals := goFields flds
  if 1 ≤ vals.length then
    let val := entryVal flds
    let attributeVals := entryFields flds
    if 6 ≤ attributeVals.length then
      match NewAttributePair parse attributeVals none with
      | .error e => .abort ("Invalid attribute entry " ++ val ++ " " ++ e)
      | .ok attrPair =>
        if attrPair.owner.id != id || attrPair.owner.affiliation != affiliation then
          .skip
        else .keep attrPair
    else .skip
  else .skip

/-- The loop of `fetchAttributes` (aca.go lines 259-280) over the raw
feed values. -/
def fetchAttributesLoop (parse : String → Option Int) (id affiliation : String) :
    List String → Except String (List AttributePair)
  | [] => .ok []
  | flds :: rest =>
    match processEntry parse id affiliation flds with
    | .abort msg => .error msg
    | .skip => fetchAttributesLoop parse id affiliation rest
    | .keep attrPair =>
      (fetchAttributesLoop parse id affiliation rest).map fun l => attrPair :: l

/-- `fetchAttributes` (aca.go lines 254-285). The Go code iterates a
configuration map in unspecified order; the feed is modelled as the list
of its raw values in iteration order. -/
def fetchAttributes (parse : String → Option Int) (feed : List String)
    (id affiliation : String) : Except String (List AttributePair) :=
  fetchAttributesLoop parse id affiliation feed

/-- A decoded ECDSA signature carried in a request or response
(`pb.Signature` with text-form `R`, `S`). -/
structure SigPair where
  r : String
  s : String
deriving DecidableEq

/-- What `x509.ParseCertificate` yields of the caller's enrollment
certificate, as far as this file consumes it: subject common name,
public key (opaque token) and key usage. -/
structure CertInfo where
  commonName : String
  pubKey : Nat
  keyUsage : Nat
deriving DecidableEq

/-- `pb.ACAAttrReq`: `nil`-able fields are `Option`; a `TCertAttribute`
is consumed only through its `AttributeName`, so the attribute list is a
list of names. `attributes = none` is Go's nil slice. -/
structure ACAAttrReq where
  ts : Option Int
  id : Option String
  eCert : Option (List Nat)
  signature : Option SigPair
  attributes : Option (List String)
deriving DecidableEq

/-- `pb.ACAAttrResp_StatusCode`. -/
inductive ACAAttrStatus where
  | FULL_SUCCESSFUL
  | PARTIAL_SUCCESSFUL
  | NO_ATTRIBUTES_FOUND
  | BAD_REQUEST
  | FAIL_NIL_TS
  | FAIL_NIL_ID
  | FAIL_NIL_ECERT
  | FAIL_NIL_SIGNATURE
  | FAILURE
deriving DecidableEq

/-- `pb.ACAAttrResp`. -/
structure ACAAttrResp where
  status : ACAAttrStatus
  cert : Option (List Nat)
  signature : Option SigPair
deriving DecidableEq

/-- `pb.ACAAttribute` as assembled by `ToACAAttribute`: the protobuf
message an attribute extension's value encodes. A zero bound marshals as
an absent timestamp. -/
structure ACAAttributeMsg where
  attributeName : String
  attributeValue : String
  validFrom : Option Int
  validTo : Option Int
deriving DecidableEq

/-- `AttributePair.ToACAAttribute` (aca.go lines 215-229). -/
def AttributePair.ToACAAttribute (attrPair : AttributePair) : ACAAttributeMsg :=
  ⟨attrPair.attributeName, attrPair.attributeValue,
    timeAsOpt attrPair.validFrom, timeAsOpt attrPair.validTo⟩

/-- A `pkix.Extension` whose value is an attribute message; the byte
encoding of the message (`proto.Marshal`) is abstracted to the message
itself. -/
structure Extension where
  oid : List Nat
  critical : Bool
  value : ACAAttributeMsg
deriving DecidableEq

/-- The certificate specification handed to the external
`newCertificateFromSpec`. Modelled from the spec:
`NewDefaultCertificateSpec` of the `CertificateAuthorityCore`
collaborator is outside the in-scope source; per the spec it carries the
caller id, the caller's public key and key usage, and the assembled
extensions into certificate creation unchanged. -/
structure CertSpec where
  id : String
  pubKey : Nat
  keyUsage : Nat
  extensions : List Extension
deriving DecidableEq

/-- Modelled from the spec: `NewDefaultCertificateSpec` packs its
arguments into a certificate specification. -/
def NewDefaultCertificateSpec (id : String) (pubKey keyUsage : Nat)
    (extensions : List Extension) : CertSpec :=
  ⟨id, pubKey, keyUsage, extensions⟩

/-- The external collaborators of aca.go, as oracles. `getTCACert` and
`getECACert` bundle `readCACertificate` + `x509.ParseCertificate` +
the public-key cast; `verifyAttrReq`/`verifyFetchReq` bundle protobuf
serialization of the zero-signature request, hashing, and
`ecdsa.Verify`; `signResp` bundles `proto.Marshal` of the zero-signature
response and `primitives.ECDSASignDirect` (`none` = either step failed);
`marshalAttrFails` is `proto.Marshal` failing on one attribute message. -/
structure AcaEnv where
  feed : List String
  parseRFC3339 : String → Option Int
  dbo : DbOracle
  getTCACert : Except String Nat
  getECACert : Except String Nat
  verifyAttrReq : Nat → ACAAttrReq → SigPair → Bool
  verifyFetchReq : Nat → Option Int → Option (List Nat) → SigPair → Bool
  parseCert : List Nat → Except String CertInfo
  parseEnrollID : String → Except String (String × String × String)
  newCertificateFromSpec : CertSpec → Except String (List Nat)
  marshalAttrFails : ACAAttributeMsg → Bool
  signResp : ACAAttrResp → Option SigPair

/-- `fetchAndPopulateAttributes` (aca.go lines 338-349): fetch then
populate; either failure fails the whole refresh. Returns the new
committed table. -/
def fetchAndPopulateAttributes (env : AcaEnv) (tbl : List AttrRow)
    (id affiliation : String) : Except String (List AttrRow) :=
  match fetchAttributes env.parseRFC3339 env.feed id affiliation with
  | .error e => .error e
  | .ok attrs =>
    match populateAttributes env.dbo tbl attrs with
    | (_, some e) => .error e
    | (tbl2, none) => .ok tbl2

/-- `createRequestAttributeResponse` (aca.go lines 423-441): sign the
zero-signature response; marshal or signing failure degrades to a bare
`FAILURE` response with no certificate and no signature. -/
def createRequestAttributeResponse (env : AcaEnv) (status : ACAAttrStatus)
    (cert : Option (List Nat)) : ACAAttrResp :=
  match env.signResp ⟨status, cert, none⟩ with
  | none => ⟨.FAILURE, none, none⟩
  | some sig => ⟨status, cert, some sig⟩

/-- The duplicate-name scan of `RequestAttributes` (aca.go lines
466-472): a growing seen-set, answering true at the first repeat. -/
def hasDupLoop (seen : List String) : List String → Bool
  | [] => false
  | a :: rest => if seen.contains a then true else hasDupLoop (a :: seen) rest

/-- Whether a requested-attribute-name list contains a duplicate. -/
def hasDup (l : List String) : Bool := hasDupLoop [] l

/-- The matching loop of `RequestAttributes` (aca.go lines 512-518): the
pairs found in the table for the requested names, in request order; the
`verifyCounter` of the Go code is the length of this list. Database
errors of `findAttribute` are discarded by the Go code (`verifiedPair,
_ :=`), matching the pure lookup here. -/
def matchedPairs (tbl : List AttrRow) (owner : AttributeOwner) :
    List String → List AttributePair
  | [] => []
  | n :: rest =>
    match findAttribute tbl owner n with
    | none => matchedPairs tbl owner rest
    | some p => p :: matchedPairs tbl owner rest

/-- The loop of `addAttributesToExtensions` (aca.go lines 544-558) with
its running OID ordinal `count`; a marshal failure skips the attribute
without consuming an ordinal. -/
def addAttributesLoop (marshalFails : ACAAttributeMsg → Bool) (count : Nat) :
    List AttributePair → List Extension
  | [] => []
  | a :: rest =>
    let att := a.ToACAAttribute
    if marshalFails att then addAttributesLoop marshalFails count rest
    else ⟨[1, 2, 3, 4, 5, 6, count], false, att⟩ ::
      addAttributesLoop marshalFails (count + 1) rest

/-- `addAttributesToExtensions` (aca.go lines 544-558), ordinals starting
at 11 (after the reserved prefix). The Go function's error result is
always nil. -/
def addAttributesToExtensions (marshalFails : ACAAttributeMsg → Bool)
    (attributes : List AttributePair) (extensions : List Extension) : List Extension :=
  extensions ++ addAttributesLoop marshalFails 11 attributes

/-- Observable side effects of a request, in occurrence order: trust-root
certificate reads, signature verification, enrollment-certificate
parsing, source fetches, store writes and store reads. -/
inductive AcaEffect where
  | readRootCert (name : String)
  | verifySignature
  | parseCertificate
  | sourceFetch
  | storeWrite
  | storeRead (attributeName : String)
  | issueCertificate
deriving DecidableEq

/-- Everything `RequestAttributes` produces: the response, the returned
Go error (`none` = nil), the committed attribute table afterwards, the
effect trace, and the certificate specification handed to certificate
creation (when reached). -/
structure ReqAttrResult where
  resp : ACAAttrResp
  goErr : Option String
  table : List AttrRow
  effects : List AcaEffect
  specUsed : Option CertSpec

/-- `RequestAttributes` (aca.go lines 444-542). -/
def RequestAttributes (env : AcaEnv) (tbl : List AttrRow) (req : ACAAttrReq) :
    ReqAttrResult :=
  let fail : ACAAttrStatus :=
    if req.ts.isNone then .FAIL_NIL_TS
    else if req.id.isNone then .FAIL_NIL_ID
    else if req.eCert.isNone then .FAIL_NIL_ECERT
    else if req.signature.isNone then .FAIL_NIL_SIGNATURE
    else .FULL_SUCCESSFUL
  if fail ≠ .FULL_SUCCESSFUL then
    ⟨createRequestAttributeResponse env fail none, none, tbl, [], none⟩
  else
    let names := req.attributes.getD []
    if hasDup names then
      ⟨createRequestAttributeResponse env .BAD_REQUEST none, none, tbl, [], none⟩
    else
      match env.getTCACert with
      | .error _ =>
        ⟨createRequestAttributeResponse env .FAILURE none,
          some "Error getting TCA certificate.", tbl, [.readRootCert "tca"], none⟩
      | .ok tcaPub =>
        let sig := req.signature.getD ⟨"", ""⟩
        let zeroed : ACAAttrReq := { req with signature := none, attributes := some names }
        if env.verifyAttrReq tcaPub zeroed sig = false then
          ⟨createRequestAttributeResponse env .FAILURE none,
            some "Signature does not verify", tbl,
            [.readRootCert "tca", .verifySignature], none⟩
        else
          match env.parseCert (req.eCert.getD []) with
          | .error e =>
            ⟨createRequestAttributeResponse env .FAILURE none, some e, tbl,
              [.readRootCert "tca", .verifySignature, .parseCertificate], none⟩
          | .ok certInfo =>
            match env.parseEnrollID certInfo.commonName with
            | .error e =>
              ⟨createRequestAttributeResponse env .FAILURE none, some e, tbl,
                [.readRootCert "tca", .verifySignature, .parseCertificate], none⟩
            | .ok (id, _role, affiliation) =>
              match fetchAndPopulateAttributes env tbl id affiliation with
              | .error e =>
                ⟨createRequestAttributeResponse env .FAILURE none, some e, tbl,
                  [.readRootCert "tca", .verifySignature, .parseCertificate,
                    .sourceFetch, .storeWrite], none⟩
              | .ok tbl2 =>
                let owner : AttributeOwner := ⟨id, affiliation⟩
                let matched := matchedPairs tbl2 owner names
                let verifyCounter := matched.length
                let extensions := addAttributesToExtensions env.marshalAttrFails matched []
                let spec := NewDefaultCertificateSpec id certInfo.pubKey
                  certInfo.keyUsage extensions
                let effs : List AcaEffect :=
                  [.readRootCert "tca", .verifySignature, .parseCertificate,
                    .sourceFetch, .storeWrite] ++ names.map .storeRead
                match env.newCertificateFromSpec spec with
                | .error e =>
                  ⟨createRequestAttributeResponse env .FAILURE none, some e, tbl2,
                    effs ++ [.issueCertificate], some spec⟩
                | .ok raw =>
                  if verifyCounter = 0 then
                    ⟨createRequestAttributeResponse env .NO_ATTRIBUTES_FOUND
                        (some raw), none, tbl2, effs ++ [.issueCertificate], some spec⟩
                  else if names.length = verifyCounter then
                    ⟨createRequestAttributeResponse env .FULL_SUCCESSFUL
                        (some raw), none, tbl2, effs ++ [.issueCertificate], some spec⟩
                  else
                    ⟨createRequestAttributeResponse env .PARTIAL_SUCCESSFUL
                        (some raw), none, tbl2, effs ++ [.issueCertificate], some spec⟩

/-- `pb.ACAFetchAttrResp` status. -/
inductive FetchAttrStatus where
  | SUCCESS
  | FAILURE
deriving DecidableEq

/-- `pb.ACAFetchAttrResp`. -/
structure ACAFetchAttrResp where
  status : FetchAttrStatus
  msg : String
deriving DecidableEq

/-- `FetchAttributes` (aca.go lines 377-421); the request is its three
`nil`-able fields. Returns the response, the Go error and the committed
table afterwards. -/
def FetchAttributes (env : AcaEnv) (tbl : List AttrRow) (ts : Option Int)
    (eCert : Option (List Nat)) (signature : Option SigPair) :
    ACAFetchAttrResp × Option String × List AttrRow :=
  if ts.isNone || eCert.isNone || signature.isNone then
    (⟨.FAILURE, "Bad request"⟩, none, tbl)
  else
    match env.getECACert with
    | .error _ => (⟨.FAILURE, ""⟩, some "Error getting ECA certificate.", tbl)
    | .ok ecaPub =>
      let sig := signature.getD ⟨"", ""⟩
      if env.verifyFetchReq ecaPub ts eCert sig = false then
        (⟨.FAILURE, "Signature does not verify"⟩, none, tbl)
      else
        match env.parseCert (eCert.getD []) with
        | .error e => (⟨.FAILURE, ""⟩, some e, tbl)
        | .ok certInfo =>
          match env.parseEnrollID certInfo.commonName with
          | .error e => (⟨.FAILURE, ""⟩, some e, tbl)
          | .ok (id, _role, affiliation) =>
            match fetchAndPopulateAttributes env tbl id affiliation with
            | .error e => (⟨.FAILURE, ""⟩, some e, tbl)
            | .ok tbl2 => (⟨.SUCCESS, ""⟩, none, tbl2)

/-! Concrete fixtures used by witnesses and counterexamples. -/

/-- An environment on which every external collaborator succeeds, the
feed is empty and every signature verifies. -/
def envAllOk : AcaEnv :=
  { feed := []
    parseRFC3339 := fun _ => none
    dbo := dbAllOk
    getTCACert := .ok 1
    getECACert := .ok 2
    verifyAttrReq := fun _ _ _ => true
    verifyFetchReq := fun _ _ _ _ => true
    parseCert := fun _ => .ok ⟨"cn", 7, 3⟩
    parseEnrollID := fun _ => .ok ("u1", "role", "org1")
    newCertificateFromSpec := fun _ => .ok [42]
    marshalAttrFails := fun _ => false
    signResp := fun _ => some ⟨"rr", "ss"⟩ }

/-- `envAllOk` except that no signature verifies. -/
def envBadSig : AcaEnv :=
  { envAllOk with
    verifyAttrReq := fun _ _ _ => false
    verifyFetchReq := fun _ _ _ _ => false }

/-- A stored attribute `A` for `u1`/`org1` with both bounds unset. -/
def rowA : AttrRow := ⟨"u1", "org1", "A", 0, 0, "va"⟩

/-- A stored attribute `B` for `u1`/`org1` valid on `[5, 10)` only. -/
def rowB : AttrRow := ⟨"u1", "org1", "B", 5, 10, "vb"⟩

/-- A well-formed request whose attribute list is absent (Go nil). -/
def reqNoAttrs : ACAAttrReq := ⟨some 1, some "ident", some [9], some ⟨"rr", "ss"⟩, none⟩

/-- A well-formed request for the attribute names `A` and `B`. -/
def reqAB : ACAAttrReq :=
  ⟨some 1, some "ident", some [9], some ⟨"rr", "ss"⟩, some ["A", "B"]⟩

/-- A well-formed request naming `A` twice. -/
def reqDup : ACAAttrReq :=
  ⟨some 1, some "ident", some [9], some ⟨"rr", "ss"⟩, some ["A", "A"]⟩

/-- A driver oracle failing exactly on attributes named `n2`. -/
def dbFailN2 : DbOracle := ⟨false, fun a => a.attributeName == "n2", false, false⟩

/-- An attribute record for upsert tests: key `(u, o, n)`, window `[1, 7)`. -/
def pairN1 : AttributePair := ⟨⟨"u", "o"⟩, "n", "v1", 1, 7⟩

/-- Same key as `pairN1`, strictly newer `validFrom`, window `[3, 9)`. -/
def pairN2 : AttributePair := ⟨⟨"u", "o"⟩, "n", "v2", 3, 9⟩

/-- An attribute record with key `(u, o, n2)`, used to trigger `dbFailN2`. -/
def pairM : AttributePair := ⟨⟨"u", "o"⟩, "n2", "v3", 1, 7⟩

/-! Theorems. -/

/-- Claim C9, counterexample: the claim reads an unset `validFrom` as
"valid from the beginning of time", but `IsValidFor` compares against
the zero value itself, so a record with both bounds unset is reported
invalid at an instant strictly before the zero value (such instants
exist in Go, e.g. dates in year 0 parsed from RFC3339), while the
spec-worded window `[-infinity, +infinity)` contains it. -/
theorem isValidFor_unset_validFrom_counterexample :
    ¬ ((AttributePair.IsValidFor ⟨⟨"u", "o"⟩, "a", "v", 0, 0⟩ (-1) = true) ↔
      (specValidFor (timeAsOpt 0) (timeAsOpt 0) (-1) = true)) := by
  decide

/-- Claim C9, amended: for every instant at or after the zero value,
`IsValidFor` agrees with the half-open window `[validFrom, validTo)`
with unset bounds read as "no constraint"; in particular `t = validFrom`
is valid and `t = validTo` is not. The amendment: an unset `validFrom`
behaves as the zero instant itself, so the equivalence holds on instants
from the zero value onward, not on the instants strictly before it. -/
theorem isValidFor_window_iff (p : AttributePair) (t : Int) (ht : 0 ≤ t) :
    p.IsValidFor t = true ↔
      specValidFor (timeAsOpt p.validFrom) (timeAsOpt p.validTo) t = true := by
  by_cases h1 : p.validFrom = 0 <;> by_cases h2 : p.validTo = 0 <;>
    simp [AttributePair.IsValidFor, specValidFor, timeAsOpt, h1, h2] <;>
    omega

/-- Witness for C9's amended theorem at a concrete record and instant. -/
theorem isValidFor_window_iff_witness :
    (0 : Int) ≤ 3 ∧
      ((AttributePair.IsValidFor ⟨⟨"u", "o"⟩, "a", "v", 2, 5⟩ 3 = true) ↔
        (specValidFor (timeAsOpt 2) (timeAsOpt 5) 3 = true)) :=
  ⟨by decide, isValidFor_window_iff ⟨⟨"u", "o"⟩, "a", "v", 2, 5⟩ 3 (by decide)⟩

/-- Claim C10, counterexample: `NewAttributePair` accepts a six-field
tuple whose third field (the attribute name) is empty, and the resulting
record's name is the empty string; the constructor never enforces the
"name non-empty" invariant. -/
theorem newAttributePair_empty_name_counterexample :
    NewAttributePair (fun _ => none) ["id", "aff", "", "val", "", ""] none =
      .ok ⟨⟨"id", "aff"⟩, "", "val", 0, 0⟩ := by
  decide

/-- Claim C10, amended: the name of a record accepted by
`NewAttributePair` is exactly the whitespace-trimmed third field of the
input tuple — which may be empty; non-emptiness of the name is not
enforced and holds only when that trimmed field is non-empty. -/
theorem newAttributePair_name_eq_trimmed_field
    (parse : String → Option Int) (vals : List String)
    (owner : Option AttributeOwner) (p : AttributePair)
    (h : NewAttributePair parse vals owner = .ok p) :
    p.attributeName = goTrimSpace (vals.getD 2 "") := by
  unfold NewAttributePair at h
  split at h
  · exact absurd h (by simp)
  · dsimp only at h
    split at h
    · exact absurd h (by simp)
    · split at h
      · exact absurd h (by simp)
      · simp only [Except.ok.injEq] at h
        subst h
        rfl

/-- Mapping a function that is the identity on every member leaves a
list unchanged. -/
theorem listMapIdOn {α : Type} (l : List α) (f : α → α)
    (h : ∀ a ∈ l, f a = a) : l.map f = l := by
  induction l with
  | nil => rfl
  | cons x xs ih =>
    simp only [List.map_cons, h x (List.mem_cons_self x xs),
      ih fun a ha => h a (List.mem_cons_of_mem x ha)]

/-- If some record of the batch fails its SQL, the transaction body of
`populateAttributes` ends in an error. -/
theorem populateAttributesLoop_error_of_mem (o : DbOracle) :
    ∀ (attrs : List AttributePair) (tx : List AttrRow),
      (∃ a ∈ attrs, o.execFails a = true) →
      ∃ e, populateAttributesLoop o tx attrs = .error e := by
  intro attrs
  induction attrs with
  | nil =>
    rintro tx ⟨a, ha, _⟩
    cases ha
  | cons x rest ih =>
    rintro tx ⟨a, ha, hfail⟩
    by_cases hx : o.execFails x = true
    · exact ⟨"populate attribute failed", by simp [populateAttributesLoop, hx]⟩
    · rcases List.mem_cons.mp ha with rfl | hmem
      · exact absurd hfail hx
      · rcases ih (populateAttribute tx x) ⟨a, hmem, hfail⟩ with ⟨e, he⟩
        exact ⟨e, by simp [populateAttributesLoop, hx, he]⟩

/-- If some entry of the feed aborts, the fetch loop ends in an error. -/
theorem fetchAttributesLoop_error_of_abort (parse : String → Option Int)
    (id affiliation : String) :
    ∀ feed : List String,
      (∃ flds ∈ feed, ∃ msg, processEntry parse id affiliation flds = .abort msg) →
      ∃ e, fetchAttributesLoop parse id affiliation feed = .error e := by
  intro feed
  induction feed with
  | nil =>
    rintro ⟨f, hf, _⟩
    cases hf
  | cons x rest ih =>
    rintro ⟨f, hf, msg, habort⟩
    rcases List.mem_cons.mp hf with rfl | hmem
    · exact ⟨msg, by simp [fetchAttributesLoop, habort]⟩
    · cases hpx : processEntry parse id affiliation x with
      | abort m => exact ⟨m, by simp [fetchAttributesLoop, hpx]⟩
      | skip =>
        rcases ih ⟨f, hmem, msg, habort⟩ with ⟨e, he⟩
        exact ⟨e, by simp [fetchAttributesLoop, hpx, he]⟩
      | keep p =>
        rcases ih ⟨f, hmem, msg, habort⟩ with ⟨e, he⟩
        exact ⟨e, by simp [fetchAttributesLoop, hpx, he, Except.map]⟩

/-- Claim C6, counterexample: a feed whose second entry is a tuple with
only five semicolon-separated fields does not abort the fetch — the
short tuple is logged and skipped, and the first entry's record is
returned as a (partial) attribute list with no failure. -/
theorem fetchAttributes_short_tuple_counterexample :
    fetchAttributes (fun _ => none) ["u1;org1;A;va;;", "a;b;c;d;e"] "u1" "org1" =
      .ok [⟨⟨"u1", "org1"⟩, "A", "va", 0, 0⟩] := by
  decide

/-- Claim C6, amended: an entry that decodes to at least six tuple
fields on which `NewAttributePair` fails — given the six-field guard,
exactly a malformed timestamp — aborts the whole fetch with a failure,
returning no attribute list at all; an entry with fewer than six fields,
by contrast, is only skipped (see the counterexample). -/
theorem fetchAttributes_malformed_timestamp_aborts
    (parse : String → Option Int) (feed : List String) (id affiliation : String)
    (h : ∃ flds ∈ feed, 1 ≤ (goFields flds).length ∧
      6 ≤ (entryFields flds).length ∧
      (NewAttributePair parse (entryFields flds) none).isOk = false) :
    ∃ e, fetchAttributes parse feed id affiliation = .error e := by
  apply fetchAttributesLoop_error_of_abort
  rcases h with ⟨f, hf, h1, h6, hbad⟩
  refine ⟨f, hf, ?_⟩
  cases hnm : NewAttributePair parse (entryFields f) none with
  | error em =>
    refine ⟨"Invalid attribute entry " ++ entryVal f ++ " " ++ em, ?_⟩
    unfold processEntry
    dsimp only
    rw [if_pos h1, if_pos h6, hnm]
  | ok p =>
    rw [hnm] at hbad
    exact absurd hbad (by simp [Except.isOk, Except.toBool])

/-- Witness for C6's amended theorem: a feed with one six-field tuple
whose `validFrom` field does not parse. -/
theorem fetchAttributes_malformed_timestamp_aborts_witness :
    (∃ flds ∈ ["a;b;c;d;e;f"], 1 ≤ (goFields flds).length ∧
      6 ≤ (entryFields flds).length ∧
      (NewAttributePair (fun _ => none) (entryFields flds) none).isOk = false) ∧
    ∃ e, fetchAttributes (fun _ => none) ["a;b;c;d;e;f"] "x" "y" = .error e :=
  ⟨by decide, fetchAttributes_malformed_timestamp_aborts (fun _ => none)
    ["a;b;c;d;e;f"] "x" "y" (by decide)⟩

/-- Claim C7, confirmed: if any single record of the batch fails to
persist, `populateAttributes` leaves the committed attribute table
exactly as it was (the whole transaction is rolled back — none of the
records become visible) and reports the failure. -/
theorem populateAttributes_atomic_rollback
    (o : DbOracle) (committed : List AttrRow) (attrs : List AttributePair)
    (h : ∃ a ∈ attrs, o.execFails a = true) :
    (populateAttributes o committed attrs).1 = committed ∧
      (populateAttributes o committed attrs).2 ≠ none := by
  unfold populateAttributes
  by_cases hb : o.beginFails = true
  · simp [hb]
  · rcases populateAttributesLoop_error_of_mem o attrs committed h with ⟨e, he⟩
    by_cases hr : o.rollbackFails = true <;> simp [hb, he, hr]

/-- Witness for C7 on a two-record batch whose second record fails. -/
theorem populateAttributes_atomic_rollback_witness :
    (∃ a ∈ [pairN1, pairM], dbFailN2.execFails a = true) ∧
    (populateAttributes dbFailN2 [rowA] [pairN1, pairM]).1 = [rowA] ∧
      (populateAttributes dbFailN2 [rowA] [pairN1, pairM]).2 ≠ none :=
  ⟨by decide, populateAttributes_atomic_rollback dbFailN2 [rowA]
    [pairN1, pairM] (by decide)⟩

/-- Claim C8, confirmed: for two records with the same storage key and
`validFrom1 < validFrom2`, starting from a table holding no row for the
key, applying the upserts in either order leaves the table extended by
exactly the record carrying `validFrom2`; in the second order the stale
write against the newer stored row is a silent no-op. -/
theorem populateAttribute_upsert_monotonic
    (tbl : List AttrRow) (r1 r2 : AttributePair)
    (hid : r1.owner.id = r2.owner.id)
    (haff : r1.owner.affiliation = r2.owner.affiliation)
    (hname : r1.attributeName = r2.attributeName)
    (hlt : r1.validFrom < r2.validFrom)
    (habs : ∀ r ∈ tbl,
      keyMatches r r2.owner.id r2.owner.affiliation r2.attributeName = false) :
    populateAttribute (populateAttribute tbl r1) r2 = tbl ++ [r2.toRow] ∧
      populateAttribute (populateAttribute tbl r2) r1 = tbl ++ [r2.toRow] := by
  have habs1 : ∀ r ∈ tbl,
      keyMatches r r1.owner.id r1.owner.affiliation r1.attributeName = false := by
    rw [hid, haff, hname]; exact habs
  have hfil1 : tbl.filter (fun r =>
      keyMatches r r1.owner.id r1.owner.affiliation r1.attributeName) = [] :=
    List.filter_eq_nil_iff.mpr fun a ha => by simp [habs1 a ha]
  have hfil2 : tbl.filter (fun r =>
      keyMatches r r2.owner.id r2.owner.affiliation r2.attributeName) = [] :=
    List.filter_eq_nil_iff.mpr fun a ha => by simp [habs a ha]
  have hins1 : populateAttribute tbl r1 = tbl ++ [r1.toRow] := by
    unfold populateAttribute
    rw [hfil1]
    simp
  have hins2 : populateAttribute tbl r2 = tbl ++ [r2.toRow] := by
    unfold populateAttribute
    rw [hfil2]
    simp
  have hkm12 : keyMatches r1.toRow r2.owner.id r2.owner.affiliation
      r2.attributeName = true := by
    simp [keyMatches, AttributePair.toRow, hid, haff, hname]
  have hkm21 : keyMatches r2.toRow r1.owner.id r1.owner.affiliation
      r1.attributeName = true := by
    simp [keyMatches, AttributePair.toRow, hid, haff, hname]
  constructor
  · rw [hins1]
    unfold populateAttribute
    rw [List.filter_append, hfil2]
    simp only [List.nil_append, List.filter_cons, hkm12, if_true,
      List.filter_nil, List.length_cons, List.length_nil]
    rw [if_pos (by omega)]
    rw [List.map_append,
      listMapIdOn tbl _ fun r hr => by simp [habs r hr]]
    simp only [List.map_cons, List.map_nil, hkm12]
    rw [if_pos]
    · simp only [List.append_cancel_left_eq, List.cons.injEq, and_true]
      simp [AttributePair.toRow, hid, haff, hname]
    · simp [AttributePair.toRow, hlt, hkm12]
  · rw [hins2]
    unfold populateAttribute
    rw [List.filter_append, hfil1]
    simp only [List.nil_append, List.filter_cons, hkm21, if_true,
      List.filter_nil, List.length_cons, List.length_nil]
    rw [if_pos (by omega)]
    rw [List.map_append,
      listMapIdOn tbl _ fun r hr => by simp [habs1 r hr]]
    simp only [List.map_cons, List.map_nil]
    rw [if_neg (by simp [AttributePair.toRow]; intro _; omega)]

/-- Witness for C8 on two concrete same-key records over an unrelated
starting row. -/
theorem populateAttribute_upsert_monotonic_witness :
    (pairN1.owner.id = pairN2.owner.id ∧
      pairN1.owner.affiliation = pairN2.owner.affiliation ∧
      pairN1.attributeName = pairN2.attributeName ∧
      pairN1.validFrom < pairN2.validFrom) ∧
    (populateAttribute (populateAttribute [rowA] pairN1) pairN2 =
        [rowA] ++ [pairN2.toRow] ∧
      populateAttribute (populateAttribute [rowA] pairN2) pairN1 =
        [rowA] ++ [pairN2.toRow]) :=
  ⟨by decide, populateAttribute_upsert_monotonic [rowA] pairN1 pairN2
    (by decide) (by decide) (by decide) (by decide) (by decide)⟩

/-- Witness for C10's amended theorem at a concrete accepted tuple. -/
theorem newAttributePair_name_eq_trimmed_field_witness :
    (⟨⟨"id", "aff"⟩, "", "val", 0, 0⟩ : AttributePair).attributeName =
      goTrimSpace (["id", "aff", "", "val", "", ""].getD 2 "") :=
  newAttributePair_name_eq_trimmed_field (fun _ => none)
    ["id", "aff", "", "val", "", ""] none ⟨⟨"id", "aff"⟩, "", "val", 0, 0⟩
    (by decide)

/-- The complete result of `RequestAttributes` on the success path: a
well-formed, duplicate-free, correctly signed request whose certificate
parses, whose identity parses, whose refresh commits and whose
certificate creation succeeds, classified by the matched count against
the requested count. -/
theorem requestAttributes_success_shape
    (env : AcaEnv) (tbl : List AttrRow) (req : ACAAttrReq)
    (tsv : Int) (idv : String) (certBytes : List Nat) (sigp : SigPair)
    (names : List String) (pub : Nat) (ci : CertInfo) (id role aff : String)
    (tbl2 : List AttrRow) (raw : List Nat)
    (hts : req.ts = some tsv) (hid : req.id = some idv)
    (hec : req.eCert = some certBytes) (hsig : req.signature = some sigp)
    (hget : req.attributes.getD [] = names)
    (hdup : hasDup names = false)
    (htca : env.getTCACert = .ok pub)
    (hver : env.verifyAttrReq pub
      { req with signature := none, attributes := some names } sigp = true)
    (hpc : env.parseCert certBytes = .ok ci)
    (hpe : env.parseEnrollID ci.commonName = .ok (id, role, aff))
    (href : fetchAndPopulateAttributes env tbl id aff = .ok tbl2)
    (hnc : env.newCertificateFromSpec
      (NewDefaultCertificateSpec id ci.pubKey ci.keyUsage
        (addAttributesToExtensions env.marshalAttrFails
          (matchedPairs tbl2 ⟨id, aff⟩ names) [])) = .ok raw) :
    RequestAttributes env tbl req =
      ⟨createRequestAttributeResponse env
          (if (matchedPairs tbl2 ⟨id, aff⟩ names).length = 0 then
            .NO_ATTRIBUTES_FOUND
          else if names.length = (matchedPairs tbl2 ⟨id, aff⟩ names).length then
            .FULL_SUCCESSFUL
          else .PARTIAL_SUCCESSFUL)
          (some raw),
        none, tbl2,
        [.readRootCert "tca", .verifySignature, .parseCertificate, .sourceFetch,
          .storeWrite] ++ names.map .storeRead ++ [.issueCertificate],
        some (NewDefaultCertificateSpec id ci.pubKey ci.keyUsage
          (addAttributesToExtensions env.marshalAttrFails
            (matchedPairs tbl2 ⟨id, aff⟩ names) []))⟩ := by
  unfold RequestAttributes
  rw [hts, hid, hec] at hver
  simp only [hts, hid, hec, hsig, hget, Option.isNone_some, Option.getD_some,
    Bool.false_eq_true, ite_false, ne_eq, htca, hver, hpc, hpe, href, hnc,
    hdup, not_true, reduceCtorEq, reduceIte, Bool.true_eq_false]
  by_cases h0 : (matchedPairs tbl2 ⟨id, aff⟩ names).length = 0
  · simp [h0]
  · by_cases hall : names.length = (matchedPairs tbl2 ⟨id, aff⟩ names).length
    · simp [h0, hall]
    · simp [h0, hall]

/-- A `FAILURE` response with no certificate keeps its status and empty
certificate whether or not the response signing succeeds. -/
theorem createResp_failure (env : AcaEnv) :
    (createRequestAttributeResponse env .FAILURE none).status = .FAILURE ∧
      (createRequestAttributeResponse env .FAILURE none).cert = none := by
  unfold createRequestAttributeResponse
  cases env.signResp ⟨.FAILURE, none, none⟩ <;> simp

/-- When the response signing succeeds, the signed response keeps the
requested status and certificate. -/
theorem createResp_of_signed (env : AcaEnv) (st : ACAAttrStatus)
    (c : Option (List Nat))
    (h : (env.signResp ⟨st, c, none⟩).isSome = true) :
    (createRequestAttributeResponse env st c).status = st ∧
      (createRequestAttributeResponse env st c).cert = c := by
  unfold createRequestAttributeResponse
  obtain ⟨s, hs⟩ := Option.isSome_iff_exists.mp h
  rw [hs]
  exact ⟨rfl, rfl⟩

/-- A pair returned by `findAttribute` carries the requested name. -/
theorem findAttribute_name (tbl : List AttrRow) (owner : AttributeOwner)
    (n : String) (p : AttributePair)
    (h : findAttribute tbl owner n = some p) : p.attributeName = n := by
  unfold findAttribute at h
  cases hf : tbl.filter fun r => keyMatches r owner.id owner.affiliation n with
  | nil => rw [hf] at h; cases h
  | cons r l =>
    rw [hf] at h
    have hr : r ∈ tbl.filter fun r => keyMatches r owner.id owner.affiliation n := by
      rw [hf]; exact List.mem_cons_self r l
    have hkey := (List.mem_filter.mp hr).2
    simp only [keyMatches, Bool.and_eq_true, beq_iff_eq] at hkey
    simp only [Option.some.injEq] at h
    rw [← h]
    exact hkey.2

/-- The result of `RequestAttributes` when the duplicate-name scan
fires: a bad-request response, no Go error, the table untouched and no
effect performed at all. -/
theorem requestAttributes_dup_shape
    (env : AcaEnv) (tbl : List AttrRow) (req : ACAAttrReq)
    (tsv : Int) (idv : String) (certBytes : List Nat) (sigp : SigPair)
    (hts : req.ts = some tsv) (hid : req.id = some idv)
    (hec : req.eCert = some certBytes) (hsig : req.signature = some sigp)
    (hdup : hasDup (req.attributes.getD []) = true) :
    RequestAttributes env tbl req =
      ⟨createRequestAttributeResponse env .BAD_REQUEST none, none, tbl, [], none⟩ := by
  unfold RequestAttributes
  simp only [hts, hid, hec, hsig, Option.isNone_some, Bool.false_eq_true,
    ite_false, ne_eq, reduceCtorEq, reduceIte, not_true, hdup, ite_true]

/-- The result of `RequestAttributes` when the signature does not
verify: a failure response with no certificate, and a non-nil Go error. -/
theorem requestAttributes_verify_fail_shape
    (env : AcaEnv) (tbl : List AttrRow) (req : ACAAttrReq)
    (tsv : Int) (idv : String) (certBytes : List Nat) (sigp : SigPair)
    (names : List String) (pub : Nat)
    (hts : req.ts = some tsv) (hid : req.id = some idv)
    (hec : req.eCert = some certBytes) (hsig : req.signature = some sigp)
    (hattrs : req.attributes = some names)
    (hdup : hasDup names = false)
    (htca : env.getTCACert = .ok pub)
    (hverf : env.verifyAttrReq pub
      { req with signature := none, attributes := some names } sigp = false) :
    RequestAttributes env tbl req =
      ⟨createRequestAttributeResponse env .FAILURE none,
        some "Signature does not verify", tbl,
        [.readRootCert "tca", .verifySignature], none⟩ := by
  unfold RequestAttributes
  rw [hts, hid, hec] at hverf
  simp only [hts, hid, hec, hsig, hattrs, Option.isNone_some, Option.getD_some,
    Bool.false_eq_true, ite_false, ne_eq, htca, hverf, hdup, reduceCtorEq,
    reduceIte, not_true, ite_true]

/-- The result of `RequestAttributes` when the enrollment certificate
does not parse. -/
theorem requestAttributes_parsecert_fail_shape
    (env : AcaEnv) (tbl : List AttrRow) (req : ACAAttrReq)
    (tsv : Int) (idv : String) (certBytes : List Nat) (sigp : SigPair)
    (names : List String) (pub : Nat) (e : String)
    (hts : req.ts = some tsv) (hid : req.id = some idv)
    (hec : req.eCert = some certBytes) (hsig : req.signature = some sigp)
    (hattrs : req.attributes = some names)
    (hdup : hasDup names = false)
    (htca : env.getTCACert = .ok pub)
    (hver : env.verifyAttrReq pub
      { req with signature := none, attributes := some names } sigp = true)
    (hpc : env.parseCert certBytes = .error e) :
    RequestAttributes env tbl req =
      ⟨createRequestAttributeResponse env .FAILURE none, some e, tbl,
        [.readRootCert "tca", .verifySignature, .parseCertificate], none⟩ := by
  unfold RequestAttributes
  rw [hts, hid, hec] at hver
  simp only [hts, hid, hec, hsig, hattrs, Option.isNone_some, Option.getD_some,
    Bool.false_eq_true, Bool.true_eq_false, ite_false, ne_eq, htca, hver, hpc,
    hdup, reduceCtorEq, reduceIte, not_true, ite_true]

/-- The result of `RequestAttributes` when the enrollment identity does
not parse. -/
theorem requestAttributes_enrollid_fail_shape
    (env : AcaEnv) (tbl : List AttrRow) (req : ACAAttrReq)
    (tsv : Int) (idv : String) (certBytes : List Nat) (sigp : SigPair)
    (names : List String) (pub : Nat) (ci : CertInfo) (e : String)
    (hts : req.ts = some tsv) (hid : req.id = some idv)
    (hec : req.eCert = some certBytes) (hsig : req.signature = some sigp)
    (hattrs : req.attributes = some names)
    (hdup : hasDup names = false)
    (htca : env.getTCACert = .ok pub)
    (hver : env.verifyAttrReq pub
      { req with signature := none, attributes := some names } sigp = true)
    (hpc : env.parseCert certBytes = .ok ci)
    (hpe : env.parseEnrollID ci.commonName = .error e) :
    RequestAttributes env tbl req =
      ⟨createRequestAttributeResponse env .FAILURE none, some e, tbl,
        [.readRootCert "tca", .verifySignature, .parseCertificate], none⟩ := by
  unfold RequestAttributes
  rw [hts, hid, hec] at hver
  simp only [hts, hid, hec, hsig, hattrs, Option.isNone_some, Option.getD_some,
    Bool.false_eq_true, Bool.true_eq_false, ite_false, ne_eq, htca, hver, hpc,
    hpe, hdup, reduceCtorEq, reduceIte, not_true, ite_true]

/-- The result of `RequestAttributes` when the attribute refresh fails. -/
theorem requestAttributes_refresh_fail_shape
    (env : AcaEnv) (tbl : List AttrRow) (req : ACAAttrReq)
    (tsv : Int) (idv : String) (certBytes : List Nat) (sigp : SigPair)
    (names : List String) (pub : Nat) (ci : CertInfo)
    (id role aff : String) (e : String)
    (hts : req.ts = some tsv) (hid : req.id = some idv)
    (hec : req.eCert = some certBytes) (hsig : req.signature = some sigp)
    (hattrs : req.attributes = some names)
    (hdup : hasDup names = false)
    (htca : env.getTCACert = .ok pub)
    (hver : env.verifyAttrReq pub
      { req with signature := none, attributes := some names } sigp = true)
    (hpc : env.parseCert certBytes = .ok ci)
    (hpe : env.parseEnrollID ci.commonName = .ok (id, role, aff))
    (href : fetchAndPopulateAttributes env tbl id aff = .error e) :
    RequestAttributes env tbl req =
      ⟨createRequestAttributeResponse env .FAILURE none, some e, tbl,
        [.readRootCert "tca", .verifySignature, .parseCertificate,
          .sourceFetch, .storeWrite], none⟩ := by
  unfold RequestAttributes
  rw [hts, hid, hec] at hver
  simp only [hts, hid, hec, hsig, hattrs, Option.isNone_some, Option.getD_some,
    Bool.false_eq_true, Bool.true_eq_false, ite_false, ne_eq, htca, hver, hpc,
    hpe, href, hdup, reduceCtorEq, reduceIte, not_true, ite_true]

/-- The result of `FetchAttributes` when the signature does not verify:
a failure response naming the cause, with a nil Go error. -/
theorem fetchAttributes_rpc_verify_fail_shape
    (env : AcaEnv) (tbl : List AttrRow)
    (tsv : Int) (certBytes : List Nat) (sigp : SigPair) (pubE : Nat)
    (heca : env.getECACert = .ok pubE)
    (hverf : env.verifyFetchReq pubE (some tsv) (some certBytes) sigp = false) :
    FetchAttributes env tbl (some tsv) (some certBytes) (some sigp) =
      (⟨.FAILURE, "Signature does not verify"⟩, none, tbl) := by
  unfold FetchAttributes
  simp only [Option.isNone_some, Option.getD_some, Bool.or_self,
    Bool.false_eq_true, ite_false, heca, hverf, reduceIte]

/-- Claim C1, counterexample: on an environment where every step
succeeds and a well-formed, correctly signed request whose attribute
list is absent (normalized to empty), the issued status is
`NO_ATTRIBUTES_FOUND`, not `FULL_SUCCESSFUL` — the zero-matches check
fires first for the empty list; a certificate is still issued. -/
theorem requestAttributes_empty_request_counterexample :
    (RequestAttributes envAllOk [] reqNoAttrs).resp.status = .NO_ATTRIBUTES_FOUND ∧
      (RequestAttributes envAllOk [] reqNoAttrs).resp.status ≠ .FULL_SUCCESSFUL ∧
      (RequestAttributes envAllOk [] reqNoAttrs).resp.cert = some [42] := by
  decide

/-- Claim C1, amended: after a well-formed, correctly signed request
passes verification and refresh, requesting an empty attribute list (or
an absent one, normalized to empty) is accepted and yields the
`NO_ATTRIBUTES_FOUND` status — not the full-success status — with a
certificate still issued. -/
theorem requestAttributes_empty_no_attributes_found
    (env : AcaEnv) (tbl : List AttrRow) (req : ACAAttrReq)
    (tsv : Int) (idv : String) (certBytes : List Nat) (sigp : SigPair)
    (pub : Nat) (ci : CertInfo) (id role aff : String)
    (tbl2 : List AttrRow) (raw : List Nat)
    (hts : req.ts = some tsv) (hid : req.id = some idv)
    (hec : req.eCert = some certBytes) (hsig : req.signature = some sigp)
    (hattrs : req.attributes = none ∨ req.attributes = some [])
    (htca : env.getTCACert = .ok pub)
    (hver : env.verifyAttrReq pub
      { req with signature := none, attributes := some [] } sigp = true)
    (hpc : env.parseCert certBytes = .ok ci)
    (hpe : env.parseEnrollID ci.commonName = .ok (id, role, aff))
    (href : fetchAndPopulateAttributes env tbl id aff = .ok tbl2)
    (hnc : env.newCertificateFromSpec
      (NewDefaultCertificateSpec id ci.pubKey ci.keyUsage []) = .ok raw)
    (hsign : ∀ r, (env.signResp r).isSome = true) :
    (RequestAttributes env tbl req).resp.status = .NO_ATTRIBUTES_FOUND ∧
      (RequestAttributes env tbl req).resp.cert = some raw := by
  have hget : req.attributes.getD [] = [] := by
    rcases hattrs with h | h <;> rw [h] <;> rfl
  have hshape := requestAttributes_success_shape env tbl req tsv idv certBytes
    sigp [] pub ci id role aff tbl2 raw hts hid hec hsig hget rfl htca hver
    hpc hpe href hnc
  rw [hshape]
  exact createResp_of_signed env _ _ (hsign _)

/-- Witness for C1's amended theorem on a concrete all-success
environment. -/
theorem requestAttributes_empty_no_attributes_found_witness :
    (RequestAttributes envAllOk [] reqNoAttrs).resp.status =
        .NO_ATTRIBUTES_FOUND ∧
      (RequestAttributes envAllOk [] reqNoAttrs).resp.cert = some [42] :=
  requestAttributes_empty_no_attributes_found envAllOk [] reqNoAttrs
    1 "ident" [9] ⟨"rr", "ss"⟩ 1 ⟨"cn", 7, 3⟩ "u1" "role" "org1" [] [42]
    rfl rfl rfl rfl (Or.inl rfl) rfl rfl rfl rfl (by decide) rfl
    fun r => rfl

/-- Claim C2, counterexample: with stored records for both requested
names — `A` currently valid at the chosen "now" (20) and `B` present
but outside its validity window at that instant, so no *currently
valid* record for `B` exists — the matching step still counts `B`
(lookup never consults the validity window), so the outcome is
`FULL_SUCCESSFUL` with two attribute extensions, not the claimed
`partial-success` with one. -/
theorem requestAttributes_expired_record_counterexample :
    (AttributePair.IsValidFor ⟨⟨"u1", "org1"⟩, "A", "va", 0, 0⟩ 20 = true) ∧
      (AttributePair.IsValidFor ⟨⟨"u1", "org1"⟩, "B", "vb", 5, 10⟩ 20 = false) ∧
      (RequestAttributes envAllOk [rowA, rowB] reqAB).resp.status =
        .FULL_SUCCESSFUL ∧
      (RequestAttributes envAllOk [rowA, rowB] reqAB).resp.status ≠
        .PARTIAL_SUCCESSFUL ∧
      ((RequestAttributes envAllOk [rowA, rowB] reqAB).specUsed.map
        fun s => s.extensions.length) = some 2 := by
  decide

/-- Claim C2, amended: requesting `[A, B]` where the store holds a
record for `A` and no record at all for `B` yields `PARTIAL_SUCCESSFUL`
with exactly one attribute extension, the one encoding `A`. The
amendment forced by the counterexample: a stored record is counted as a
match whether or not its validity window contains "now" — only the
absence of a stored row for `B` produces the partial outcome. -/
theorem requestAttributes_partial_match_single_extension
    (env : AcaEnv) (tbl : List AttrRow) (req : ACAAttrReq)
    (tsv : Int) (idv : String) (certBytes : List Nat) (sigp : SigPair)
    (A B : String) (pub : Nat) (ci : CertInfo) (id role aff : String)
    (tbl2 : List AttrRow) (raw : List Nat) (pA : AttributePair)
    (hts : req.ts = some tsv) (hid : req.id = some idv)
    (hec : req.eCert = some certBytes) (hsig : req.signature = some sigp)
    (hattrs : req.attributes = some [A, B]) (hAB : A ≠ B)
    (htca : env.getTCACert = .ok pub)
    (hver : env.verifyAttrReq pub
      { req with signature := none, attributes := some [A, B] } sigp = true)
    (hpc : env.parseCert certBytes = .ok ci)
    (hpe : env.parseEnrollID ci.commonName = .ok (id, role, aff))
    (href : fetchAndPopulateAttributes env tbl id aff = .ok tbl2)
    (hfA : findAttribute tbl2 ⟨id, aff⟩ A = some pA)
    (hfB : findAttribute tbl2 ⟨id, aff⟩ B = none)
    (hmarsh : env.marshalAttrFails pA.ToACAAttribute = false)
    (hnc : env.newCertificateFromSpec
      (NewDefaultCertificateSpec id ci.pubKey ci.keyUsage
        [⟨[1, 2, 3, 4, 5, 6, 11], false, pA.ToACAAttribute⟩]) = .ok raw)
    (hsign : ∀ r, (env.signResp r).isSome = true) :
    (RequestAttributes env tbl req).resp.status = .PARTIAL_SUCCESSFUL ∧
      (RequestAttributes env tbl req).resp.cert = some raw ∧
      (RequestAttributes env tbl req).specUsed =
        some (NewDefaultCertificateSpec id ci.pubKey ci.keyUsage
          [⟨[1, 2, 3, 4, 5, 6, 11], false, pA.ToACAAttribute⟩]) ∧
      pA.attributeName = A := by
  have hget : req.attributes.getD [] = [A, B] := by rw [hattrs]; rfl
  have hdup : hasDup [A, B] = false := by
    simp [hasDup, hasDupLoop]
    exact Ne.symm hAB
  have hmp : matchedPairs tbl2 ⟨id, aff⟩ [A, B] = [pA] := by
    simp [matchedPairs, hfA, hfB]
  have hext : addAttributesToExtensions env.marshalAttrFails
      (matchedPairs tbl2 ⟨id, aff⟩ [A, B]) [] =
      [⟨[1, 2, 3, 4, 5, 6, 11], false, pA.ToACAAttribute⟩] := by
    rw [hmp]
    simp [addAttributesToExtensions, addAttributesLoop, hmarsh]
  have hnc2 : env.newCertificateFromSpec
      (NewDefaultCertificateSpec id ci.pubKey ci.keyUsage
        (addAttributesToExtensions env.marshalAttrFails
          (matchedPairs tbl2 ⟨id, aff⟩ [A, B]) [])) = .ok raw := by
    rw [hext]; exact hnc
  have hshape := requestAttributes_success_shape env tbl req tsv idv certBytes
    sigp [A, B] pub ci id role aff tbl2 raw hts hid hec hsig hget hdup htca
    hver hpc hpe href hnc2
  rw [hshape]
  simp only [hmp, List.length_cons, List.length_nil, List.length_singleton]
  have hcr := createResp_of_signed env .PARTIAL_SUCCESSFUL (some raw) (hsign _)
  refine ⟨?_, ?_, ?_, findAttribute_name tbl2 ⟨id, aff⟩ A pA hfA⟩
  · simpa using hcr.1
  · simpa using hcr.2
  · simp [addAttributesToExtensions, addAttributesLoop, hmarsh]

/-- Witness for C2's amended theorem: store holding `A` only. -/
theorem requestAttributes_partial_match_single_extension_witness :
    (RequestAttributes envAllOk [rowA] reqAB).resp.status =
        .PARTIAL_SUCCESSFUL ∧
      (RequestAttributes envAllOk [rowA] reqAB).resp.cert = some [42] ∧
      (RequestAttributes envAllOk [rowA] reqAB).specUsed =
        some (NewDefaultCertificateSpec "u1" 7 3
          [⟨[1, 2, 3, 4, 5, 6, 11], false,
            AttributePair.ToACAAttribute ⟨⟨"u1", "org1"⟩, "A", "va", 0, 0⟩⟩]) ∧
      (⟨⟨"u1", "org1"⟩, "A", "va", 0, 0⟩ : AttributePair).attributeName = "A" :=
  requestAttributes_partial_match_single_extension envAllOk [rowA] reqAB
    1 "ident" [9] ⟨"rr", "ss"⟩ "A" "B" 1 ⟨"cn", 7, 3⟩ "u1" "role" "org1"
    [rowA] [42] ⟨⟨"u1", "org1"⟩, "A", "va", 0, 0⟩
    rfl rfl rfl rfl rfl (by decide) rfl rfl rfl rfl rfl
    (by decide) (by decide) rfl rfl fun r => rfl

/-- Claim C3, confirmed: once a well-formed, duplicate-free request has
reached the classification step, the status is `NO_ATTRIBUTES_FOUND`
when zero requested names matched (with a certificate still issued),
`FULL_SUCCESSFUL` when every name matched — the zero-matched case,
listed first, takes precedence for the empty request — and
`PARTIAL_SUCCESSFUL` otherwise; a failure of signature verification,
certificate parsing, identity parsing or refresh short-circuits to a
`FAILURE` outcome carrying no certificate. -/
theorem requestAttributes_classification
    (env : AcaEnv) (tbl : List AttrRow) (req : ACAAttrReq)
    (tsv : Int) (idv : String) (certBytes : List Nat) (sigp : SigPair)
    (names : List String) (pub : Nat)
    (hts : req.ts = some tsv) (hid : req.id = some idv)
    (hec : req.eCert = some certBytes) (hsig : req.signature = some sigp)
    (hattrs : req.attributes = some names)
    (hdup : hasDup names = false)
    (htca : env.getTCACert = .ok pub)
    (hsign : ∀ r, (env.signResp r).isSome = true) :
    (env.verifyAttrReq pub
        { req with signature := none, attributes := some names } sigp = false →
      (RequestAttributes env tbl req).resp.status = .FAILURE ∧
        (RequestAttributes env tbl req).resp.cert = none) ∧
    (env.verifyAttrReq pub
        { req with signature := none, attributes := some names } sigp = true →
      (∀ e, env.parseCert certBytes = .error e →
        (RequestAttributes env tbl req).resp.status = .FAILURE ∧
          (RequestAttributes env tbl req).resp.cert = none) ∧
      (∀ ci, env.parseCert certBytes = .ok ci →
        (∀ e, env.parseEnrollID ci.commonName = .error e →
          (RequestAttributes env tbl req).resp.status = .FAILURE ∧
            (RequestAttributes env tbl req).resp.cert = none) ∧
        (∀ id role aff, env.parseEnrollID ci.commonName = .ok (id, role, aff) →
          (∀ e, fetchAndPopulateAttributes env tbl id aff = .error e →
            (RequestAttributes env tbl req).resp.status = .FAILURE ∧
              (RequestAttributes env tbl req).resp.cert = none) ∧
          (∀ tbl2 raw, fetchAndPopulateAttributes env tbl id aff = .ok tbl2 →
            env.newCertificateFromSpec
              (NewDefaultCertificateSpec id ci.pubKey ci.keyUsage
                (addAttributesToExtensions env.marshalAttrFails
                  (matchedPairs tbl2 ⟨id, aff⟩ names) [])) = .ok raw →
            (RequestAttributes env tbl req).resp.status =
              (if (matchedPairs tbl2 ⟨id, aff⟩ names).length = 0 then
                .NO_ATTRIBUTES_FOUND
              else if names.length =
                  (matchedPairs tbl2 ⟨id, aff⟩ names).length then
                .FULL_SUCCESSFUL
              else .PARTIAL_SUCCESSFUL) ∧
            (RequestAttributes env tbl req).resp.cert = some raw)))) := by
  refine ⟨fun hverf => ?_, fun hver => ⟨fun e hpc => ?_,
    fun ci hpc => ⟨fun e hpe => ?_, fun id role aff hpe =>
      ⟨fun e href => ?_, fun tbl2 raw href hnc => ?_⟩⟩⟩⟩
  · rw [requestAttributes_verify_fail_shape env tbl req tsv idv certBytes sigp
      names pub hts hid hec hsig hattrs hdup htca hverf]
    exact createResp_failure env
  · rw [requestAttributes_parsecert_fail_shape env tbl req tsv idv certBytes
      sigp names pub e hts hid hec hsig hattrs hdup htca hver hpc]
    exact createResp_failure env
  · rw [requestAttributes_enrollid_fail_shape env tbl req tsv idv certBytes
      sigp names pub ci e hts hid hec hsig hattrs hdup htca hver hpc hpe]
    exact createResp_failure env
  · rw [requestAttributes_refresh_fail_shape env tbl req tsv idv certBytes
      sigp names pub ci id role aff e hts hid hec hsig hattrs hdup htca hver
      hpc hpe href]
    exact createResp_failure env
  · have hget : req.attributes.getD [] = names := by rw [hattrs]; rfl
    rw [requestAttributes_success_shape env tbl req tsv idv certBytes sigp
      names pub ci id role aff tbl2 raw hts hid hec hsig hget hdup htca hver
      hpc hpe href hnc]
    exact createResp_of_signed env _ _ (hsign _)

/-- Witness for C3 at a concrete all-success environment and the
two-name request. -/
theorem requestAttributes_classification_witness :
    (envAllOk.verifyAttrReq 1
        { reqAB with signature := none, attributes := some ["A", "B"] }
        ⟨"rr", "ss"⟩ = false →
      (RequestAttributes envAllOk [] reqAB).resp.status = .FAILURE ∧
        (RequestAttributes envAllOk [] reqAB).resp.cert = none) ∧
    (envAllOk.verifyAttrReq 1
        { reqAB with signature := none, attributes := some ["A", "B"] }
        ⟨"rr", "ss"⟩ = true →
      (∀ e, envAllOk.parseCert [9] = .error e →
        (RequestAttributes envAllOk [] reqAB).resp.status = .FAILURE ∧
          (RequestAttributes envAllOk [] reqAB).resp.cert = none) ∧
      (∀ ci, envAllOk.parseCert [9] = .ok ci →
        (∀ e, envAllOk.parseEnrollID ci.commonName = .error e →
          (RequestAttributes envAllOk [] reqAB).resp.status = .FAILURE ∧
            (RequestAttributes envAllOk [] reqAB).resp.cert = none) ∧
        (∀ id role aff,
            envAllOk.parseEnrollID ci.commonName = .ok (id, role, aff) →
          (∀ e, fetchAndPopulateAttributes envAllOk [] id aff = .error e →
            (RequestAttributes envAllOk [] reqAB).resp.status = .FAILURE ∧
              (RequestAttributes envAllOk [] reqAB).resp.cert = none) ∧
          (∀ tbl2 raw, fetchAndPopulateAttributes envAllOk [] id aff = .ok tbl2 →
            envAllOk.newCertificateFromSpec
              (NewDefaultCertificateSpec id ci.pubKey ci.keyUsage
                (addAttributesToExtensions envAllOk.marshalAttrFails
                  (matchedPairs tbl2 ⟨id, aff⟩ ["A", "B"]) [])) = .ok raw →
            (RequestAttributes envAllOk [] reqAB).resp.status =
              (if (matchedPairs tbl2 ⟨id, aff⟩ ["A", "B"]).length = 0 then
                .NO_ATTRIBUTES_FOUND
              else if (["A", "B"] : List String).length =
                  (matchedPairs tbl2 ⟨id, aff⟩ ["A", "B"]).length then
                .FULL_SUCCESSFUL
              else .PARTIAL_SUCCESSFUL) ∧
            (RequestAttributes envAllOk [] reqAB).resp.cert = some raw)))) :=
  requestAttributes_classification envAllOk [] reqAB 1 "ident" [9]
    ⟨"rr", "ss"⟩ ["A", "B"] 1 rfl rfl rfl rfl rfl (by decide) rfl
    fun r => rfl

/-- Claim C4, confirmed: a well-formed request with a duplicated
requested-attribute name is answered with `BAD_REQUEST`, with no Go
error, before anything else happens: the effect trace is empty — no
trust-root certificate read, no signature verification and no attribute
store access — and the stored table is untouched. The environment
(trust roots, verifier, store, feed) is arbitrary, so the outcome does
not depend on any of them. -/
theorem requestAttributes_duplicate_bad_request
    (env : AcaEnv) (tbl : List AttrRow) (req : ACAAttrReq)
    (tsv : Int) (idv : String) (certBytes : List Nat) (sigp : SigPair)
    (names : List String)
    (hts : req.ts = some tsv) (hid : req.id = some idv)
    (hec : req.eCert = some certBytes) (hsig : req.signature = some sigp)
    (hattrs : req.attributes = some names)
    (hdup : hasDup names = true)
    (hsign : (env.signResp ⟨.BAD_REQUEST, none, none⟩).isSome = true) :
    (RequestAttributes env tbl req).resp.status = .BAD_REQUEST ∧
      (RequestAttributes env tbl req).resp.cert = none ∧
      (RequestAttributes env tbl req).goErr = none ∧
      (RequestAttributes env tbl req).effects = [] ∧
      (RequestAttributes env tbl req).table = tbl := by
  have hdup2 : hasDup (req.attributes.getD []) = true := by
    rw [hattrs]; exact hdup
  rw [requestAttributes_dup_shape env tbl req tsv idv certBytes sigp hts hid
    hec hsig hdup2]
  have hcr := createResp_of_signed env .BAD_REQUEST none hsign
  exact ⟨hcr.1, hcr.2, rfl, rfl, rfl⟩

/-- Witness for C4 at a concrete duplicated request. -/
theorem requestAttributes_duplicate_bad_request_witness :
    (RequestAttributes envAllOk [rowA] reqDup).resp.status = .BAD_REQUEST ∧
      (RequestAttributes envAllOk [rowA] reqDup).resp.cert = none ∧
      (RequestAttributes envAllOk [rowA] reqDup).goErr = none ∧
      (RequestAttributes envAllOk [rowA] reqDup).effects = [] ∧
      (RequestAttributes envAllOk [rowA] reqDup).table = [rowA] :=
  requestAttributes_duplicate_bad_request envAllOk [rowA] reqDup 1 "ident"
    [9] ⟨"rr", "ss"⟩ ["A", "A"] rfl rfl rfl rfl rfl (by decide) rfl

/-- Claim C5, counterexample: when the signature of a `RequestAttributes`
call does not verify, the operation returns the failure-status response
*together with* a non-nil error value (`"Signature does not verify"`,
aca.go line 490) — an RPC-level error does accompany the response, so
the claim that the caller receives a status code with no accompanying
RPC-level error is false for `RequestAttributes`. -/
theorem requestAttributes_signature_failure_error_counterexample :
    (RequestAttributes envBadSig [] reqAB).resp.status = .FAILURE ∧
      (RequestAttributes envBadSig [] reqAB).goErr =
        some "Signature does not verify" ∧
      (RequestAttributes envBadSig [] reqAB).goErr ≠ none := by
  decide

/-- Claim C5, amended: a signature that does not verify yields a
distinct failure outcome as an ordinary response value in both
operations, but the two differ on the RPC-level error: `FetchAttributes`
returns the failure status (message `"Signature does not verify"`) with
a nil error, while `RequestAttributes` returns its failure-status,
certificate-free response *alongside* a non-nil `"Signature does not
verify"` error. -/
theorem signature_failure_failure_response
    (env : AcaEnv) (tbl : List AttrRow)
    (ftsv : Int) (fcertBytes : List Nat) (fsigp : SigPair) (pubE : Nat)
    (req : ACAAttrReq) (tsv : Int) (idv : String) (certBytes : List Nat)
    (sigp : SigPair) (names : List String) (pub : Nat)
    (heca : env.getECACert = .ok pubE)
    (hverF : env.verifyFetchReq pubE (some ftsv) (some fcertBytes) fsigp = false)
    (hts : req.ts = some tsv) (hid : req.id = some idv)
    (hec : req.eCert = some certBytes) (hsig : req.signature = some sigp)
    (hattrs : req.attributes = some names)
    (hdup : hasDup names = false)
    (htca : env.getTCACert = .ok pub)
    (hverR : env.verifyAttrReq pub
      { req with signature := none, attributes := some names } sigp = false) :
    (FetchAttributes env tbl (some ftsv) (some fcertBytes) (some fsigp)).1 =
        ⟨.FAILURE, "Signature does not verify"⟩ ∧
      (FetchAttributes env tbl (some ftsv) (some fcertBytes) (some fsigp)).2.1 =
        none ∧
      (RequestAttributes env tbl req).resp.status = .FAILURE ∧
      (RequestAttributes env tbl req).resp.cert = none ∧
      (RequestAttributes env tbl req).goErr =
        some "Signature does not verify" := by
  rw [fetchAttributes_rpc_verify_fail_shape env tbl ftsv fcertBytes fsigp
    pubE heca hverF]
  rw [requestAttributes_verify_fail_shape env tbl req tsv idv certBytes sigp
    names pub hts hid hec hsig hattrs hdup htca hverR]
  have hcf := createResp_failure env
  exact ⟨rfl, rfl, hcf.1, hcf.2, rfl⟩

/-- Witness for C5's amended theorem on the no-signature-verifies
environment. -/
theorem signature_failure_failure_response_witness :
    (FetchAttributes envBadSig [] (some 1) (some [9]) (some ⟨"rr", "ss"⟩)).1 =
        ⟨.FAILURE, "Signature does not verify"⟩ ∧
      (FetchAttributes envBadSig [] (some 1) (some [9])
        (some ⟨"rr", "ss"⟩)).2.1 = none ∧
      (RequestAttributes envBadSig [] reqAB).resp.status = .FAILURE ∧
      (RequestAttributes envBadSig [] reqAB).resp.cert = none ∧
      (RequestAttributes envBadSig [] reqAB).goErr =
        some "Signature does not verify" :=
  signature_failure_failure_response envBadSig [] 1 [9] ⟨"rr", "ss"⟩ 2
    reqAB 1 "ident" [9] ⟨"rr", "ss"⟩ ["A", "B"] 1 rfl rfl rfl rfl rfl rfl
    rfl (by decide) rfl rfl

end Aca
